import Mathlib

/-!
Verification of the MLP head module (`vissl/models/heads/mlp.py`).

The module builds a sequential stack of {Linear, BatchNorm1d, ReLU, Dropout}
layers from a dimension list and four boolean flags (`MLP.__init__`), and its
`forward` squeezes all size-1 axes of the input and applies the stack in order.

Numeric hyperparameters (batch-norm epsilon and momentum) are only plumbed
through, never computed with, so they are modelled as rationals.
-/

namespace Vissl

/-- The part of the configuration object the module reads:
`model_config.HEAD.BATCHNORM_EPS` and `model_config.HEAD.BATCHNORM_MOMENTUM`. -/
structure ModelConfig where
  batchnormEps : ℚ
  batchnormMomentum : ℚ
deriving DecidableEq, Repr

/-- The closed palette of layer kinds the module instantiates.
`linear inF outF bias` is `nn.Linear(inF, outF, bias=bias)`;
`batchNorm1d c eps mom` is `nn.BatchNorm1d(c, eps=eps, momentum=mom)`;
`relu inplace` is `nn.ReLU(inplace=inplace)`; `dropout` is `nn.Dropout()`
with the runtime default probability. -/
inductive Layer where
  | linear (inFeatures outFeatures : Nat) (bias : Bool)
  | batchNorm1d (numFeatures : Nat) (eps momentum : ℚ)
  | relu (inplace : Bool)
  | dropout
deriving DecidableEq, Repr

/-- Transcription of the loop body of `MLP.__init__` (mlp.py lines 48-64),
accumulator style mirroring the imperative `layers.append(...)` calls:
append `nn.Linear(last_dim, dim, bias=use_bias)`; if `use_bn` append
`nn.BatchNorm1d(dim, eps, momentum)`; if `use_relu` append
`nn.ReLU(inplace=True)` and (only then) set `last_dim = dim`; if
`use_dropout` append `nn.Dropout()`. -/
def mlpLoop (cfg : ModelConfig) (useBn useRelu useDropout useBias : Bool) :
    List Layer → Nat → List Nat → List Layer
  | acc, _, [] => acc
  | acc, lastDim, dim :: rest =>
    let acc1 := acc ++ [Layer.linear lastDim dim useBias]
    let acc2 := if useBn then
        acc1 ++ [Layer.batchNorm1d dim cfg.batchnormEps cfg.batchnormMomentum]
      else acc1
    let acc3 := if useRelu then acc2 ++ [Layer.relu true] else acc2
    let lastDim1 := if useRelu then dim else lastDim
    let acc4 := if useDropout then acc3 ++ [Layer.dropout] else acc3
    mlpLoop cfg useBn useRelu useDropout useBias acc4 lastDim1 rest

/-- `MLP.__init__(model_config, dims, use_bn, use_relu, use_dropout, use_bias)`.
Line 49 reads `dims[0]` before the loop, so an empty `dims` raises an
`IndexError`: modelled as `none`. Otherwise the constructed `self.clf`
stack is returned. (In the Python signature the flags default to
`use_bn=False, use_relu=False, use_dropout=False, use_bias=True`.) -/
def mlpInit (cfg : ModelConfig) (dims : List Nat)
    (useBn useRelu useDropout useBias : Bool) : Option (List Layer) :=
  match dims with
  | [] => none
  | d0 :: rest => some (mlpLoop cfg useBn useRelu useDropout useBias [] d0 rest)

/-- The per-pair layer chunk of the spec's Block Builder algorithm (spec §4.1,
steps 1-4): linear, then optionally batch norm, then optionally relu, then
optionally dropout. Stated as concatenation of optional singleton lists. -/
def specChunk (cfg : ModelConfig) (useBn useRelu useDropout useBias : Bool)
    (lastDim dim : Nat) : List Layer :=
  [Layer.linear lastDim dim useBias]
    ++ (if useBn then
          [Layer.batchNorm1d dim cfg.batchnormEps cfg.batchnormMomentum]
        else [])
    ++ (if useRelu then [Layer.relu true] else [])
    ++ (if useDropout then [Layer.dropout] else [])

/-- The spec's Block Builder (spec §4.1), following its words: walk the
consecutive pairs `(last_dim, dim)`, emit the chunk for each pair, and advance
`last_dim := dim` only when the nonlinearity flag is enabled. -/
def specBuild (cfg : ModelConfig) (useBn useRelu useDropout useBias : Bool) :
    Nat → List Nat → List Layer
  | _, [] => []
  | lastDim, dim :: rest =>
    specChunk cfg useBn useRelu useDropout useBias lastDim dim
      ++ specBuild cfg useBn useRelu useDropout useBias
          (if useRelu then dim else lastDim) rest

/-- `torch.squeeze`: remove every axis of size 1 from a shape. -/
def squeezeShape (s : List Nat) : List Nat := s.filter (fun d => d ≠ 1)

/-- Shape semantics of one primitive layer, as the PyTorch runtime checks it:
`nn.Linear(inF, outF)` accepts any shape `(..., inF)` of rank ≥ 1 and replaces
the last axis by `outF`; `nn.BatchNorm1d(c)` accepts `(N, c)` or `(N, c, L)`
and preserves the shape; `nn.ReLU` and `nn.Dropout` accept and preserve any
shape. A shape the layer rejects yields `none` (the runtime raises). -/
def applyLayer : Layer → List Nat → Option (List Nat)
  | Layer.linear inF outF _, s =>
    match s.getLast? with
    | some d => if d = inF then some (s.dropLast ++ [outF]) else none
    | none => none
  | Layer.batchNorm1d c _ _, s =>
    if (s.length = 2 ∨ s.length = 3) ∧ s.getD 1 0 = c then some s else none
  | Layer.relu _, s => some s
  | Layer.dropout, s => some s

/-- `nn.Sequential`: apply the layers in order, propagating failure. -/
def applyLayers : List Layer → List Nat → Option (List Nat)
  | [], s => some s
  | l :: ls, s => (applyLayer l s).bind (applyLayers ls)

/-- Shape behaviour of `MLP.forward` (mlp.py lines 74-76):
`batch = torch.squeeze(batch); out = self.clf(batch)`. -/
def forwardShape (stack : List Layer) (s : List Nat) : Option (List Nat) :=
  applyLayers stack (squeezeShape s)

/-- A tensor as shape plus flat data; squeezing changes only the shape. -/
structure Tensor where
  shape : List Nat
  data : List ℚ
deriving DecidableEq, Repr

/-- `torch.squeeze` on a tensor: drop the size-1 axes, keep the data. -/
def squeezeT (t : Tensor) : Tensor := ⟨squeezeShape t.shape, t.data⟩

/-- `nn.Sequential` at the value level, parametric in the runtime semantics
`f` of the individual layers (weights, batch statistics, mode are owned by the
external runtime, so `f` is arbitrary here). -/
def runSeq (f : Layer → Tensor → Option Tensor) :
    List Layer → Tensor → Option Tensor
  | [], t => some t
  | l :: ls, t => (f l t).bind (runSeq f ls)

/-- Value behaviour of `MLP.forward`: squeeze, then run `self.clf`. -/
def forwardT (f : Layer → Tensor → Option Tensor) (stack : List Layer)
    (t : Tensor) : Option Tensor :=
  runSeq f stack (squeezeT t)

/-- The linear layers of a stack, in order, as (input width, output width,
bias flag) triples. -/
def linearsOf (stack : List Layer) : List (Nat × Nat × Bool) :=
  stack.filterMap fun l =>
    match l with
    | Layer.linear a b bias => some (a, b, bias)
    | _ => none

/-- Whether a layer is a linear layer. -/
def isLinear : Layer → Bool
  | Layer.linear _ _ _ => true
  | _ => false

/-- A fixed concrete configuration used in closed witness statements. -/
def cfg0 : ModelConfig := ⟨1 / 100000, 1 / 10⟩

/-! ## Helper lemmas -/

/-- The imperative loop of `MLP.__init__` computes the spec's chunk
concatenation: the accumulator is only ever appended to. -/
theorem mlpLoop_eq_specBuild (cfg : ModelConfig)
    (useBn useRelu useDropout useBias : Bool) (l : List Nat) :
    ∀ (acc : List Layer) (lastDim : Nat),
      mlpLoop cfg useBn useRelu useDropout useBias acc lastDim l
        = acc ++ specBuild cfg useBn useRelu useDropout useBias lastDim l := by
  induction l with
  | nil => intro acc lastDim; simp [mlpLoop, specBuild]
  | cons dim rest ih =>
    intro acc lastDim
    rw [mlpLoop, specBuild, ih]
    cases useBn <;> cases useRelu <;> cases useDropout <;>
      simp [specChunk, List.append_assoc]

/-- `MLP.__init__` on a nonempty `dims` yields the spec's stack. -/
theorem mlpInit_cons (cfg : ModelConfig) (useBn useRelu useDropout useBias : Bool)
    (d0 : Nat) (rest : List Nat) :
    mlpInit cfg (d0 :: rest) useBn useRelu useDropout useBias
      = some (specBuild cfg useBn useRelu useDropout useBias d0 rest) := by
  rw [mlpInit, mlpLoop_eq_specBuild]
  simp

/-- `linearsOf` distributes over concatenation. -/
theorem linearsOf_append (xs ys : List Layer) :
    linearsOf (xs ++ ys) = linearsOf xs ++ linearsOf ys := by
  simp [linearsOf, List.filterMap_append]

/-- A chunk contributes exactly one linear layer, `lastDim -> dim`. -/
theorem linearsOf_specChunk (cfg : ModelConfig)
    (useBn useRelu useDropout useBias : Bool) (lastDim dim : Nat) :
    linearsOf (specChunk cfg useBn useRelu useDropout useBias lastDim dim)
      = [(lastDim, dim, useBias)] := by
  cases useBn <;> cases useRelu <;> cases useDropout <;>
    simp [specChunk, linearsOf, List.filterMap_append, List.filterMap]

/-- With the nonlinearity disabled, `last_dim` never advances: every linear
layer of the stack takes the initial `lastDim` as input width. -/
theorem linearsOf_specBuild_false (cfg : ModelConfig)
    (useBn useDropout useBias : Bool) (lastDim : Nat) (l : List Nat) :
    linearsOf (specBuild cfg useBn false useDropout useBias lastDim l)
      = l.map (fun b => (lastDim, b, useBias)) := by
  induction l with
  | nil => simp [specBuild, linearsOf]
  | cons dim rest ih =>
    rw [specBuild, linearsOf_append, linearsOf_specChunk]
    simp [ih]

/-- With the nonlinearity enabled, `last_dim` advances each pair: the linear
layers realize the consecutive pairs of `lastDim :: l`. -/
theorem linearsOf_specBuild_true (cfg : ModelConfig)
    (useBn useDropout useBias : Bool) (l : List Nat) :
    ∀ lastDim : Nat,
      linearsOf (specBuild cfg useBn true useDropout useBias lastDim l)
        = ((lastDim :: l).zip l).map (fun p => (p.1, p.2, useBias)) := by
  induction l with
  | nil => intro lastDim; simp [specBuild, linearsOf]
  | cons dim rest ih =>
    intro lastDim
    rw [specBuild, linearsOf_append, linearsOf_specChunk, ih]
    simp [List.zip]

/-- Zipping a list with itself shifted by one and keeping only the second
components recovers the list. -/
theorem zip_shift_map_snd {α β : Type} (g : α → β) (l : List α) :
    ∀ x : α, (((x :: l).zip l).map (fun p => g p.2)) = l.map g := by
  induction l with
  | nil => intro x; simp
  | cons a rest ih =>
    intro x
    rw [List.zip_cons_cons, List.map_cons, ih a]
    simp

/-- A chunk holds `1 + [use_bn] + [use_relu] + [use_dropout]` layers. -/
theorem specChunk_length (cfg : ModelConfig)
    (useBn useRelu useDropout useBias : Bool) (lastDim dim : Nat) :
    (specChunk cfg useBn useRelu useDropout useBias lastDim dim).length
      = 1 + useBn.toNat + useRelu.toNat + useDropout.toNat := by
  cases useBn <;> cases useRelu <;> cases useDropout <;> simp [specChunk]

/-- The stack holds one chunk per element of the tail of `dims`. -/
theorem specBuild_length (cfg : ModelConfig)
    (useBn useRelu useDropout useBias : Bool) (l : List Nat) :
    ∀ lastDim : Nat,
      (specBuild cfg useBn useRelu useDropout useBias lastDim l).length
        = l.length * (1 + useBn.toNat + useRelu.toNat + useDropout.toNat) := by
  induction l with
  | nil => intro lastDim; simp [specBuild]
  | cons dim rest ih =>
    intro lastDim
    rw [specBuild, List.length_append, specChunk_length,
      ih (if useRelu then dim else lastDim)]
    simp [Nat.succ_mul, Nat.add_comm]

/-- Sequential application distributes over concatenation of stacks. -/
theorem applyLayers_append (xs ys : List Layer) (s : List Nat) :
    applyLayers (xs ++ ys) s = (applyLayers xs s).bind (applyLayers ys) := by
  induction xs generalizing s with
  | nil => simp [applyLayers]
  | cons l ls ih =>
    rw [List.cons_append, applyLayers, applyLayers]
    cases applyLayer l s with
    | none => simp
    | some t => simp [ih t]

/-- A successful linear application leaves the output width as last axis. -/
theorem applyLayer_linear_getLast (inF outF : Nat) (bias : Bool)
    (s t : List Nat) (h : applyLayer (Layer.linear inF outF bias) s = some t) :
    t.getLast? = some outF := by
  cases hl : s.getLast? with
  | none =>
    simp only [applyLayer, hl] at h
    exact Option.noConfusion h
  | some d =>
    simp only [applyLayer, hl] at h
    by_cases hd : d = inF
    · rw [if_pos hd] at h
      injection h with h2
      rw [← h2]
      exact List.getLast?_concat _
    · rw [if_neg hd] at h
      exact absurd h (by simp)

/-- A linear layer rejects any shape whose last axis is not its input width. -/
theorem applyLayer_linear_none (inF outF : Nat) (bias : Bool) (s : List Nat)
    (h : s.getLast? ≠ some inF) :
    applyLayer (Layer.linear inF outF bias) s = none := by
  cases hl : s.getLast? with
  | none => simp [applyLayer, hl]
  | some d =>
    have hd : d ≠ inF := by intro he; exact h (by rw [hl, he])
    simp [applyLayer, hl, hd]

/-- Batch norm, relu and dropout preserve the shape whenever they apply. -/
theorem applyLayer_preserves (l : Layer) (hl : isLinear l = false)
    (s t : List Nat) (h : applyLayer l s = some t) : t = s := by
  cases l with
  | linear a b bias => simp [isLinear] at hl
  | batchNorm1d c e m =>
    rw [applyLayer] at h
    split at h
    · injection h with h2; exact h2.symm
    · exact absurd h (by simp)
  | relu inplace =>
    rw [applyLayer] at h; injection h with h2; exact h2.symm
  | dropout =>
    rw [applyLayer] at h; injection h with h2; exact h2.symm

/-- A stack of shape-preserving layers preserves the shape when it succeeds. -/
theorem applyLayers_preserves (ls : List Layer)
    (hl : ∀ l ∈ ls, isLinear l = false) :
    ∀ s t : List Nat, applyLayers ls s = some t → t = s := by
  induction ls with
  | nil => intro s t h; rw [applyLayers] at h; injection h with h2; exact h2.symm
  | cons l ls2 ih =>
    intro s t h
    rw [applyLayers] at h
    cases hfl : applyLayer l s with
    | none => rw [hfl] at h; exact absurd h (by simp)
    | some u =>
      rw [hfl] at h
      rw [Option.some_bind] at h
      have hu : u = s := applyLayer_preserves l (hl l (by simp)) s u hfl
      rw [← hu]
      exact ih (fun x hx => hl x (by simp [hx])) u t h

/-- With the normalization flag off, the built stack does not depend on the
configuration object at all. -/
theorem specBuild_no_bn (cfg1 cfg2 : ModelConfig)
    (useRelu useDropout useBias : Bool) (l : List Nat) :
    ∀ lastDim : Nat,
      specBuild cfg1 false useRelu useDropout useBias lastDim l
        = specBuild cfg2 false useRelu useDropout useBias lastDim l := by
  induction l with
  | nil => intro lastDim; rfl
  | cons dim rest ih =>
    intro lastDim
    rw [specBuild, specBuild, ih]
    congr 1

/-- A chunk with the nonlinearity off is its linear layer followed by a tail
of non-linear layers. -/
theorem specChunk_false_shape (cfg : ModelConfig) (useBn useDropout useBias : Bool)
    (a b : Nat) :
    ∃ tail : List Layer, (∀ l ∈ tail, isLinear l = false)
      ∧ specChunk cfg useBn false useDropout useBias a b
        = Layer.linear a b useBias :: tail := by
  refine ⟨(if useBn then
        [Layer.batchNorm1d b cfg.batchnormEps cfg.batchnormMomentum] else [])
      ++ (if useDropout then [Layer.dropout] else []), ?_, ?_⟩
  · intro l hl
    rw [List.mem_append] at hl
    cases hl with
    | inl h1 =>
      cases useBn with
      | false => simp at h1
      | true => simp at h1; rw [h1]; rfl
    | inr h1 =>
      cases useDropout with
      | false => simp at h1
      | true => simp at h1; rw [h1]; rfl
  · simp [specChunk]

/-- A successful pass through a nonlinearity-free chunk ends with the chunk's
output width as last axis. -/
theorem applyLayers_specChunk_false_getLast (cfg : ModelConfig)
    (useBn useDropout useBias : Bool) (a b : Nat) (s t : List Nat)
    (h : applyLayers (specChunk cfg useBn false useDropout useBias a b) s
      = some t) :
    t.getLast? = some b := by
  obtain ⟨tail, htail, hch⟩ := specChunk_false_shape cfg useBn useDropout useBias a b
  rw [hch, applyLayers] at h
  cases hfl : applyLayer (Layer.linear a b useBias) s with
  | none => rw [hfl] at h; exact absurd h (by simp)
  | some u =>
    rw [hfl, Option.some_bind] at h
    have ht : t = u := applyLayers_preserves tail htail u t h
    rw [ht]
    exact applyLayer_linear_getLast a b useBias s u hfl

/-! ## Claim theorems -/

/-- C1: in the block built by `MLP.__init__`, the input width advances only
when the nonlinearity flag is on. For `dims` of length ≥ 3 with
`use_relu=False`, every linear layer takes `dims[0]` as input width; with
`use_relu=True`, the linear layers realize the consecutive pairs
`(dims[i], dims[i+1])`, so the i-th one takes `dims[i]` as input width. -/
theorem mlp_relu_input_width_coupling (cfg : ModelConfig)
    (useBn useDropout useBias : Bool) (d0 d1 d2 : Nat) (rest : List Nat) :
    (∀ p ∈ linearsOf
        ((mlpInit cfg (d0 :: d1 :: d2 :: rest) useBn false useDropout
          useBias).getD []), p.1 = d0)
    ∧ linearsOf
        ((mlpInit cfg (d0 :: d1 :: d2 :: rest) useBn true useDropout
          useBias).getD [])
      = ((d0 :: d1 :: d2 :: rest).zip (d1 :: d2 :: rest)).map
          (fun p => (p.1, p.2, useBias)) := by
  constructor
  · intro p hp
    rw [mlpInit_cons, Option.getD_some, linearsOf_specBuild_false] at hp
    rw [List.mem_map] at hp
    obtain ⟨b, hb, hpe⟩ := hp
    rw [← hpe]
  · rw [mlpInit_cons, Option.getD_some,
      linearsOf_specBuild_true cfg useBn useDropout useBias (d1 :: d2 :: rest) d0]

/-- C2: for `dims` of length ≥ 2 and any flags, the stack built by
`MLP.__init__` is exactly the spec's chunk-per-consecutive-pair algorithm
(`specBuild`): linear (bias iff `use_bias`), then batch norm over `dim`
channels with the config's epsilon and momentum iff `use_bn`, then an in-place
ReLU iff `use_relu`, then a default dropout iff `use_dropout`, with `last_dim`
advancing only in the ReLU branch, and nothing else appended. -/
theorem mlp_build_matches_spec_algorithm (cfg : ModelConfig)
    (useBn useRelu useDropout useBias : Bool) (d0 d1 : Nat) (rest : List Nat) :
    mlpInit cfg (d0 :: d1 :: rest) useBn useRelu useDropout useBias
      = some (specBuild cfg useBn useRelu useDropout useBias d0 (d1 :: rest)) :=
  mlpInit_cons cfg useBn useRelu useDropout useBias d0 (d1 :: rest)

/-- C3 counterexample: for `dims = [1, 2, 3]` with `use_relu=False`, the
second linear layer (index 1) maps width 1 to width 3, not `dims[1] = 2`
to `dims[2] = 3` as the claim states. -/
theorem mlp_second_linear_width_counterexample :
    (linearsOf ((mlpInit cfg0 [1, 2, 3] false false false true).getD [])).get? 1
      = some (1, 3, true)
    ∧ some ((1 : Nat), (3 : Nat), true) ≠ some ((2 : Nat), (3 : Nat), true) := by
  constructor
  · decide
  · decide

/-- C3 amended: the i-th linear layer always has output width `dims[i+1]`,
but its input width is `dims[i]` only when `use_relu` is true; when
`use_relu` is false its input width is `dims[0]`. -/
theorem mlp_linear_widths_amended (cfg : ModelConfig)
    (useBn useRelu useDropout useBias : Bool) (d0 : Nat) (rest : List Nat) :
    linearsOf ((mlpInit cfg (d0 :: rest) useBn useRelu useDropout useBias).getD [])
      = ((d0 :: rest).zip rest).map
          (fun p => ((if useRelu then p.1 else d0), p.2, useBias)) := by
  rw [mlpInit_cons, Option.getD_some]
  cases useRelu with
  | false =>
    rw [linearsOf_specBuild_false]
    simp only [Bool.false_eq_true, if_false]
    exact (zip_shift_map_snd (fun b => (d0, b, useBias)) rest d0).symm
  | true =>
    rw [linearsOf_specBuild_true cfg useBn useDropout useBias rest d0]
    simp

/-- C4 counterexample: `MLP.forward` squeezes `(2, 1, 1, 1)` to `(2,)`, not
to `(2, 1)`, so a rank-4 input with `N > 1` does not always squeeze to
`(N, C)`: the feature axis collapses too when `C = 1`. -/
theorem mlp_forward_squeeze_counterexample :
    squeezeShape [2, 1, 1, 1] = [2] ∧ squeezeShape [2, 1, 1, 1] ≠ [2, 1] := by
  constructor
  · decide
  · decide

/-- C4 amended: `MLP.forward` removes all size-1 axes of the input (a full
squeeze) and then applies the layer stack in construction order; for a rank-4
input `(N, C, 1, 1)` with `N > 1` and `C > 1` the squeezed shape is `(N, C)`,
and for `N = 1` the batch axis also collapses, leaving `(C,)`. -/
theorem mlp_forward_full_squeeze (stack : List Layer) (s : List Nat)
    (n c : Nat) (hn : 1 < n) (hc : 1 < c) :
    forwardShape stack s = applyLayers stack (squeezeShape s)
    ∧ squeezeShape [n, c, 1, 1] = [n, c]
    ∧ squeezeShape [1, c, 1, 1] = [c] := by
  have hn1 : n ≠ 1 := by omega
  have hc1 : c ≠ 1 := by omega
  refine ⟨rfl, ?_, ?_⟩
  · simp [squeezeShape, hn1, hc1]
  · simp [squeezeShape, hc1]

/-- C4 witness: the amended squeeze behaviour at `N = 2`, `C = 3`. -/
theorem mlp_forward_full_squeeze_witness :
    (1 < 2 ∧ 1 < 3)
    ∧ (forwardShape [] [0] = applyLayers [] (squeezeShape [0])
       ∧ squeezeShape [2, 3, 1, 1] = [2, 3]
       ∧ squeezeShape [1, 3, 1, 1] = [3]) :=
  ⟨by decide, mlp_forward_full_squeeze [] [0] 2 3 (by decide) (by decide)⟩

/-- C5: for `dims = [D0, D1]` with `use_bn=True` and the other optional flags
false, the stack is exactly `[linear, batch norm]`, the batch norm acting on
`D1` channels with `HEAD.BATCHNORM_EPS` as epsilon and
`HEAD.BATCHNORM_MOMENTUM` as momentum. -/
theorem mlp_bn_layer_config (cfg : ModelConfig) (d0 d1 : Nat) (useBias : Bool) :
    mlpInit cfg [d0, d1] true false false useBias
      = some [Layer.linear d0 d1 useBias,
          Layer.batchNorm1d d1 cfg.batchnormEps cfg.batchnormMomentum] := rfl

/-- C6: for `dims = [D]` and any flags, `MLP.__init__` builds an empty stack,
and `MLP.forward` then returns the squeezed input unchanged, whatever the
runtime semantics `f` of the individual layers is. -/
theorem mlp_single_dim_identity (cfg : ModelConfig)
    (useBn useRelu useDropout useBias : Bool) (d : Nat)
    (f : Layer → Tensor → Option Tensor) (t : Tensor) :
    mlpInit cfg [d] useBn useRelu useDropout useBias = some []
    ∧ forwardT f
        ((mlpInit cfg [d] useBn useRelu useDropout useBias).getD [Layer.dropout]) t
      = some (squeezeT t) :=
  ⟨rfl, rfl⟩

/-- C7 counterexample: `MLP.__init__` with `dims = []` does not complete with
an empty stack: line 49 evaluates `dims[0]`, which raises `IndexError` on an
empty list (modelled as `none`). -/
theorem mlp_empty_dims_counterexample :
    mlpInit cfg0 [] false false false true = none
    ∧ mlpInit cfg0 [] false false false true ≠ some [] := by
  constructor
  · rfl
  · decide

/-- C7 amended: `dims` of length 1 is accepted and yields an empty stack with
construction completing normally, but `dims` of length 0 fails at the
`dims[0]` read with an `IndexError` (it is rejected, not a valid no-op). -/
theorem mlp_short_dims (cfg : ModelConfig)
    (useBn useRelu useDropout useBias : Bool) (d : Nat) :
    mlpInit cfg [] useBn useRelu useDropout useBias = none
    ∧ mlpInit cfg [d] useBn useRelu useDropout useBias = some [] :=
  ⟨rfl, rfl⟩

/-- C8: when `use_bn` is false the configuration object is never read:
construction with any two configurations and otherwise identical arguments
yields identical layer stacks. -/
theorem mlp_config_noninterference (cfg1 cfg2 : ModelConfig) (dims : List Nat)
    (useRelu useDropout useBias : Bool) :
    mlpInit cfg1 dims false useRelu useDropout useBias
      = mlpInit cfg2 dims false useRelu useDropout useBias := by
  cases dims with
  | nil => rfl
  | cons d0 rest =>
    rw [mlpInit_cons, mlpInit_cons, specBuild_no_bn cfg1 cfg2 useRelu useDropout useBias rest d0]

/-- C9: the stack built by `MLP.__init__` holds exactly
`(len(dims) - 1) * (1 + [use_bn] + [use_relu] + [use_dropout])` layers. -/
theorem mlp_stack_length (cfg : ModelConfig)
    (useBn useRelu useDropout useBias : Bool) (dims : List Nat)
    (h : 1 ≤ dims.length) :
    (mlpInit cfg dims useBn useRelu useDropout useBias).map List.length
      = some ((dims.length - 1)
          * (1 + useBn.toNat + useRelu.toNat + useDropout.toNat)) := by
  cases dims with
  | nil => simp at h
  | cons d0 rest =>
    rw [mlpInit_cons]
    simp [specBuild_length cfg useBn useRelu useDropout useBias rest d0]

/-- C9 witness: `dims = [5, 7]` with batch norm and dropout gives 3 layers. -/
theorem mlp_stack_length_witness :
    1 ≤ ([5, 7] : List Nat).length
    ∧ (mlpInit cfg0 [5, 7] true false true true).map List.length
      = some ((([5, 7] : List Nat).length - 1)
          * (1 + (true : Bool).toNat + (false : Bool).toNat + (true : Bool).toNat)) :=
  ⟨by decide, mlp_stack_length cfg0 true false true true [5, 7] (by decide)⟩

/-- C10: with `use_relu=False`, `dims` of length ≥ 3 and `dims[0] ≠ dims[1]`,
the stack is internally shape-inconsistent: the second linear layer expects
input width `dims[0]` but receives width `dims[1]`, so `MLP.forward` fails
with a shape mismatch on every input. -/
theorem mlp_no_relu_mismatch_forward_fails (cfg : ModelConfig)
    (useBn useDropout useBias : Bool) (d0 d1 d2 : Nat) (rest : List Nat)
    (stack : List Layer) (s : List Nat) (hne : d0 ≠ d1)
    (hstack : mlpInit cfg (d0 :: d1 :: d2 :: rest) useBn false useDropout useBias
      = some stack) :
    forwardShape stack s = none := by
  rw [mlpInit_cons] at hstack
  injection hstack with hs
  subst hs
  rw [forwardShape]
  have hb : specBuild cfg useBn false useDropout useBias d0 (d1 :: d2 :: rest)
      = specChunk cfg useBn false useDropout useBias d0 d1
        ++ (specChunk cfg useBn false useDropout useBias d0 d2
            ++ specBuild cfg useBn false useDropout useBias d0 rest) := by
    rw [specBuild, specBuild]
    simp
  rw [hb, applyLayers_append]
  cases h1 : applyLayers (specChunk cfg useBn false useDropout useBias d0 d1)
      (squeezeShape s) with
  | none => rfl
  | some t =>
    rw [Option.some_bind, applyLayers_append]
    have hlast : t.getLast? = some d1 :=
      applyLayers_specChunk_false_getLast cfg useBn useDropout useBias d0 d1
        (squeezeShape s) t h1
    obtain ⟨tail2, htail2, hch2⟩ :=
      specChunk_false_shape cfg useBn useDropout useBias d0 d2
    rw [hch2, applyLayers]
    have hnone : applyLayer (Layer.linear d0 d2 useBias) t = none := by
      apply applyLayer_linear_none
      rw [hlast]
      intro hcon
      injection hcon with hc2
      exact hne hc2.symm
    rw [hnone]
    rfl

/-- C10 witness: `dims = [1, 2, 3]`, no flags, on input shape `(4, 1)`. -/
theorem mlp_no_relu_mismatch_forward_fails_witness :
    ((1 : Nat) ≠ 2
      ∧ mlpInit cfg0 [1, 2, 3] false false false true
        = some [Layer.linear 1 2 true, Layer.linear 1 3 true])
    ∧ forwardShape [Layer.linear 1 2 true, Layer.linear 1 3 true] [4, 1] = none :=
  ⟨⟨by decide, by decide⟩,
    mlp_no_relu_mismatch_forward_fails cfg0 false false true 1 2 3 []
      [Layer.linear 1 2 true, Layer.linear 1 3 true] [4, 1] (by decide) (by decide)⟩

end Vissl
